import Mathlib

/-!
# Verification of the pysystemtrade price-pipeline initialisation scripts

Shallow embedding of the roll-calendar boundary extension, the batch
drivers, the frequency-merge stage, the sink write guard, the
multiple-price stitcher and the CSV access layer, together with proofs
about the spec's claims.

Datetimes are modelled as natural numbers measured in days; `now` (the
reference clock of `datetime.datetime.now()`) is passed explicitly.
Prices are modelled as rationals; a missing observation is `none`.
-/

namespace PySystemTrade

/-- A contract date label (`contractDate` in `sysobjects`), identified by
expiry year and month. -/
structure contractDate where
  year : Nat
  month : Nat
deriving DecidableEq, Repr

/-- Modelled from the spec: `rollParameters` (`sysobjects/rolls.py`, not under
`src/`): "per-instrument configuration: the cycle of valid contract months,
and offsets defining which cycle-relative contract is held, which is traded
next, and which is used for carry". We keep the hold cycle and the priced
cycle as month lists and the carry offset as a sign. -/
structure rollParameters where
  hold_rollcycle : List Nat
  priced_rollcycle : List Nat
  carry_offset : Int
deriving DecidableEq, Repr

/-- Modelled from the spec: the "next contract in the roll cycle", a pure
function of the current contract and the roll parameters (spec section 9):
advance to the next month of the hold cycle, wrapping into the next year. -/
def next_held_contract (c : contractDate) (rp : rollParameters) : contractDate :=
  match rp.hold_rollcycle.find? (fun m => c.month < m) with
  | some m => ⟨c.year, m⟩
  | none => ⟨c.year + 1, rp.hold_rollcycle.headD c.month⟩

/-- Modelled from the spec: the carry contract, a pure function of the current
contract and the roll parameters: step one place through the priced cycle in
the direction of the carry offset. -/
def carry_contract (c : contractDate) (rp : rollParameters) : contractDate :=
  if 0 ≤ rp.carry_offset then
    match rp.priced_rollcycle.find? (fun m => c.month < m) with
    | some m => ⟨c.year, m⟩
    | none => ⟨c.year + 1, rp.priced_rollcycle.headD c.month⟩
  else
    match (rp.priced_rollcycle.filter (fun m => m < c.month)).getLast? with
    | some m => ⟨c.year, m⟩
    | none => ⟨c.year - 1, (rp.priced_rollcycle.getLast?).getD c.month⟩

/-- One row of a roll calendar: a roll date paired with the current, next and
carry contract identifiers (the `pd.DataFrame` row of the csv calendars). -/
structure RollCalRow where
  date : Nat
  current_contract : contractDate
  next_contract : contractDate
  carry_contract : contractDate
deriving DecidableEq, Repr

/-- A roll calendar: the ordered-by-date table of roll rows. -/
abbrev RollCalendar := List RollCalRow

/-- The per-contract final (closing) price dictionary
(`dictFuturesContractFinalPrices`): contract id to its merged closing series. -/
abbrev PriceDict := List (contractDate × List (Nat × Option ℚ))

/-- Errors a pipeline stage can signal. `indexError` models the Python
`IndexError` of `iloc[-1]` on an empty frame; the remaining constructors
model the error kinds named by the spec. -/
inductive PipeError where
  | indexError
  | missingContractData
  | insufficientData
  | duplication
  | pipelineFailure
deriving DecidableEq, Repr

/-- `add_phantom_row` from
`sysinit/futures/multipleprices_from_db_prices_and_csv_calendars_to_db.py`
(lines 158-192). `now` is the reference clock; `datetime.timedelta(days=5)`
becomes `+ 5`. The source takes `final_row = roll_calendar.iloc[-1]`, returns
the calendar unchanged when `now < final_row.name`, otherwise builds the new
current contract from `final_row.next_contract`, derives next and carry via
`next_held_contract` / `carry_contract`, and — if the current contract's key
is missing from the price dictionary — catches its own assertion and returns
the calendar unchanged; otherwise it concatenates the single new row. -/
def add_phantom_row (now : Nat) (roll_calendar : RollCalendar)
    (dict_of_futures_contract_prices : PriceDict)
    (roll_parameters : rollParameters) : Except PipeError RollCalendar :=
  match roll_calendar.getLast? with
  | none => .error .indexError
  | some final_row =>
    if now < final_row.date then
      .ok roll_calendar
    else
      let virtual_datetime := now + 5
      let current_contract := final_row.next_contract
      let next_contract := next_held_contract current_contract roll_parameters
      let carry_contract := PySystemTrade.carry_contract current_contract roll_parameters
      let list_of_contract_names := dict_of_futures_contract_prices.map Prod.fst
      if current_contract ∈ list_of_contract_names then
        .ok (roll_calendar ++
          [⟨virtual_datetime, current_contract, next_contract, carry_contract⟩])
      else
        .ok roll_calendar

/-- Boolean check that the dates of a calendar are strictly increasing. -/
def datesSorted : RollCalendar → Bool
  | [] => true
  | [_] => true
  | a :: b :: rest => decide (a.date < b.date) && datesSorted (b :: rest)

/-- Sample roll parameters (quarterly cycle) used in concrete witnesses. -/
def sampleRP : rollParameters := ⟨[3, 6, 9, 12], [3, 6, 9, 12], 1⟩

/-- Sample calendar row used in concrete witnesses. -/
def sampleRow : RollCalRow := ⟨10, ⟨2024, 3⟩, ⟨2024, 6⟩, ⟨2024, 9⟩⟩

/-- Sample price dictionary used in concrete witnesses. -/
def sampleDict : PriceDict := [(⟨2024, 6⟩, [(8, some 100)]), (⟨2024, 12⟩, [])]

/-- Appending a strictly later-dated row preserves sortedness. -/
theorem datesSorted_append_single {cal : RollCalendar} {r fr : RollCalRow}
    (hs : datesSorted cal = true) (hlast : cal.getLast? = some fr)
    (hlt : fr.date < r.date) : datesSorted (cal ++ [r]) = true := by
  induction cal with
  | nil => simp at hlast
  | cons a rest ih =>
    cases rest with
    | nil =>
      simp only [List.getLast?_singleton, Option.some.injEq] at hlast
      subst hlast
      simp [datesSorted, hlt]
    | cons b rest2 =>
      rw [List.getLast?_cons_cons] at hlast
      simp only [datesSorted, Bool.and_eq_true, decide_eq_true_eq] at hs
      have := ih hs.2 hlast
      simpa [datesSorted, hs.1] using this

/-- C1: with a fixed reference clock, price dictionary and roll parameters,
the boundary-row extension is idempotent: a calendar whose last row's date
lies beyond the reference date is returned unchanged, and applying
`add_phantom_row` to any output of `add_phantom_row` returns that output
unchanged. -/
theorem add_phantom_row_idempotent (now : Nat) (cal : RollCalendar)
    (prices : PriceDict) (rp : rollParameters) :
    (∀ fr, cal.getLast? = some fr → now < fr.date →
      add_phantom_row now cal prices rp = .ok cal) ∧
    (∀ cal2, add_phantom_row now cal prices rp = .ok cal2 →
      add_phantom_row now cal2 prices rp = .ok cal2) := by
  constructor
  · intro fr hlast hlt
    unfold add_phantom_row
    rw [hlast]
    simp [hlt]
  · intro cal2 h
    unfold add_phantom_row at h
    cases hlast : cal.getLast? with
    | none => rw [hlast] at h; exact absurd h (by simp)
    | some fr =>
      rw [hlast] at h
      by_cases hlt : now < fr.date
      · simp only [if_pos hlt, Except.ok.injEq] at h
        subst h
        unfold add_phantom_row
        rw [hlast]
        simp [hlt]
      · simp only [if_neg hlt] at h
        by_cases hmem : fr.next_contract ∈ prices.map Prod.fst
        · simp only [if_pos hmem, Except.ok.injEq] at h
          subst h
          unfold add_phantom_row
          rw [List.getLast?_concat]
          simp
        · simp only [if_neg hmem, Except.ok.injEq] at h
          subst h
          unfold add_phantom_row
          rw [hlast]
          simp [hlt, hmem]

/-- Concrete instance of the idempotence theorem: a calendar whose last row
is dated after the clock is returned unchanged. -/
theorem add_phantom_row_idempotent_witness :
    add_phantom_row 5 [sampleRow] sampleDict sampleRP = .ok [sampleRow] :=
  (add_phantom_row_idempotent 5 [sampleRow] sampleDict sampleRP).1
    sampleRow (by rfl) (by decide)

/-- C4: the boundary-row extension preserves the strictly-increasing-dates
invariant, and any appended boundary row is dated strictly after the last
existing row. -/
theorem add_phantom_row_preserves_sorted (now : Nat) (cal cal2 : RollCalendar)
    (prices : PriceDict) (rp : rollParameters)
    (hsorted : datesSorted cal = true)
    (h : add_phantom_row now cal prices rp = .ok cal2) :
    datesSorted cal2 = true ∧
    (∀ fr r, cal.getLast? = some fr → cal2 = cal ++ [r] → fr.date < r.date) := by
  unfold add_phantom_row at h
  cases hlast : cal.getLast? with
  | none => rw [hlast] at h; exact absurd h (by simp)
  | some fr =>
    rw [hlast] at h
    by_cases hlt : now < fr.date
    · simp only [if_pos hlt, Except.ok.injEq] at h
      subst h
      refine ⟨hsorted, ?_⟩
      intro fr' r _ hcat
      exact absurd (congrArg List.length hcat) (by simp)
    · simp only [if_neg hlt] at h
      by_cases hmem : fr.next_contract ∈ prices.map Prod.fst
      · simp only [if_pos hmem, Except.ok.injEq] at h
        subst h
        have hfr : fr.date < now + 5 := by omega
        refine ⟨datesSorted_append_single hsorted hlast hfr, ?_⟩
        intro fr' r hlast' hcat
        have hfr' := Option.some.inj hlast'
        subst hfr'
        have hr := List.append_cancel_left hcat
        simp only [List.cons.injEq, and_true] at hr
        subst hr
        exact hfr
      · simp only [if_neg hmem, Except.ok.injEq] at h
        subst h
        refine ⟨hsorted, ?_⟩
        intro fr' r _ hcat
        exact absurd (congrArg List.length hcat) (by simp)

/-- Concrete instance of the sortedness preservation: a boundary row is
appended after the last row and the result stays strictly increasing. -/
theorem add_phantom_row_preserves_sorted_witness :
    datesSorted [sampleRow, ⟨25, ⟨2024, 6⟩, ⟨2024, 9⟩, ⟨2024, 9⟩⟩] = true :=
  (add_phantom_row_preserves_sorted 20 [sampleRow]
    [sampleRow, ⟨25, ⟨2024, 6⟩, ⟨2024, 9⟩, ⟨2024, 9⟩⟩] sampleDict sampleRP
    (by decide) (by rfl)).1

/-- C9: the boundary-row extension is a pure function of its explicit
inputs, and on any nonempty calendar its result is either the input calendar
itself or the input calendar with exactly one row appended. -/
theorem add_phantom_row_frame (now : Nat) (cal : RollCalendar)
    (prices : PriceDict) (rp : rollParameters) (hne : cal ≠ []) :
    add_phantom_row now cal prices rp = .ok cal ∨
    ∃ r, add_phantom_row now cal prices rp = .ok (cal ++ [r]) := by
  unfold add_phantom_row
  cases hlast : cal.getLast? with
  | none => exact absurd (List.getLast?_eq_none_iff.mp hlast) hne
  | some fr =>
    by_cases hlt : now < fr.date
    · left; simp [hlt]
    · by_cases hmem : fr.next_contract ∈ prices.map Prod.fst
      · right
        refine ⟨⟨now + 5, fr.next_contract, next_held_contract fr.next_contract rp,
          PySystemTrade.carry_contract fr.next_contract rp⟩, ?_⟩
        simp [hlt, hmem]
      · left; simp [hlt, hmem]

/-- Concrete instance of the frame theorem on a one-row calendar. -/
theorem add_phantom_row_frame_witness :
    add_phantom_row 20 [sampleRow] sampleDict sampleRP = .ok [sampleRow] ∨
    ∃ r, add_phantom_row 20 [sampleRow] sampleDict sampleRP =
      .ok ([sampleRow] ++ [r]) :=
  add_phantom_row_frame 20 [sampleRow] sampleDict sampleRP (by decide)

/-- The instrument loop of `process_multiple_prices_all_instruments`
(`multipleprices_from_db_prices_and_csv_calendars_to_db.py`, lines 52-76):
iterate over the instrument list, calling the single-instrument pipeline for
each; there is no exception handling, so a raised error propagates and
aborts the loop. The per-instrument pipeline is the abstract `single`
because it performs database and csv access. -/
def process_multiple_prices_all_instruments
    (single : String → Except PipeError Unit) :
    List String → Except PipeError Unit
  | [] => .ok ()
  | instrument_code :: rest =>
    match single instrument_code with
    | .ok _ => process_multiple_prices_all_instruments single rest
    | .error e => .error e

/-- The instrument loop of `process_adjusted_prices_all_instruments`
(`adjustedprices_from_db_multiple_to_db.py`, lines 27-39): the same
unguarded loop over the instrument list. -/
def process_adjusted_prices_all_instruments
    (single : String → Except PipeError Unit) :
    List String → Except PipeError Unit
  | [] => .ok ()
  | instrument_code :: rest =>
    match single instrument_code with
    | .ok _ => process_adjusted_prices_all_instruments single rest
    | .error e => .error e

/-- The instruments such a loop actually attempts before it stops: every
instrument up to and including the first failing one. -/
def batch_attempted (single : String → Except PipeError Unit) :
    List String → List String
  | [] => []
  | instrument_code :: rest =>
    match single instrument_code with
    | .ok _ => instrument_code :: batch_attempted single rest
    | .error _ => [instrument_code]

/-- C5 counterexample: with two instruments where the first one's pipeline
fails, both all-instruments drivers propagate the error and the second
instrument is never attempted — the batch does not continue. -/
theorem batch_aborts_counterexample :
    process_multiple_prices_all_instruments
      (fun s => if s = "GOLD" then .error .pipelineFailure else .ok ())
      ["GOLD", "SILVER"] = .error .pipelineFailure ∧
    process_adjusted_prices_all_instruments
      (fun s => if s = "GOLD" then .error .pipelineFailure else .ok ())
      ["GOLD", "SILVER"] = .error .pipelineFailure ∧
    batch_attempted
      (fun s => if s = "GOLD" then .error .pipelineFailure else .ok ())
      ["GOLD", "SILVER"] = ["GOLD"] :=
  ⟨by rfl, by rfl, by rfl⟩

/-- C5 amended: a failure while processing one instrument aborts the whole
batch: in both all-instruments drivers the error of the first failing
instrument propagates out of the loop, and only the instruments up to and
including the failing one are attempted; no per-instrument success/failure
summary is produced. -/
theorem batch_aborts_on_failure (single : String → Except PipeError Unit)
    (pre post : List String) (i : String) (e : PipeError)
    (hpre : ∀ j ∈ pre, single j = .ok ()) (hi : single i = .error e) :
    process_multiple_prices_all_instruments single (pre ++ i :: post) = .error e ∧
    process_adjusted_prices_all_instruments single (pre ++ i :: post) = .error e ∧
    batch_attempted single (pre ++ i :: post) = pre ++ [i] := by
  induction pre with
  | nil =>
    simp [process_multiple_prices_all_instruments,
      process_adjusted_prices_all_instruments, batch_attempted, hi]
  | cons a rest ih =>
    have ha : single a = .ok () := hpre a (by simp)
    have ih' := ih (fun j hj => hpre j (by simp [hj]))
    simp [process_multiple_prices_all_instruments,
      process_adjusted_prices_all_instruments, batch_attempted, ha,
      ih'.1, ih'.2.1, ih'.2.2]

/-- Concrete instance of the batch-abort behaviour: a failure on the second
of three instruments aborts the driver. -/
theorem batch_aborts_on_failure_witness :
    process_multiple_prices_all_instruments
      (fun s => if s = "GOLD" then .error .pipelineFailure else .ok ())
      (["CORN"] ++ "GOLD" :: ["SILVER"]) = .error .pipelineFailure :=
  (batch_aborts_on_failure
    (fun s => if s = "GOLD" then .error .pipelineFailure else .ok ())
    ["CORN"] ["SILVER"] "GOLD" .pipelineFailure
    (by intro j hj; simp only [List.mem_singleton] at hj; subst hj; rfl)
    (by rfl)).1

/-- A futures contract (`futuresContract` in `sysobjects/contracts.py`):
an instrument code and a contract date. -/
structure futuresContract where
  instrument_code : String
  contract_date : contractDate
deriving DecidableEq, Repr

/-- Price sampling frequency (`syscore.dateutils`): `HOURLY_FREQ`,
`DAILY_PRICE_FREQ` and `MIXED_FREQ`. -/
inductive Frequency where
  | hourly
  | daily
  | mixed
deriving DecidableEq, Repr

/-- A per-contract price series at one frequency. -/
abbrev PriceSeries := List (Nat × Option ℚ)

/-- The per-contract price store, keyed by contract and frequency
(modelling the database collaborator of `create_merged_prices`). -/
abbrev PriceDb := List ((futuresContract × Frequency) × PriceSeries)

/-- Whether the store has price data for a contract at a frequency:
the keyed series exists and is nonempty. -/
def has_price_data_for_contract_at_frequency (db : PriceDb)
    (contract : futuresContract) (frequency : Frequency) : Bool :=
  match db.lookup (contract, frequency) with
  | some s => !s.isEmpty
  | none => false

/-- Read the stored series for a contract at a frequency (empty if absent;
`create_merged_prices` only reads behind its has-data guard). -/
def get_prices_at_frequency_for_contract_object (db : PriceDb)
    (contract : futuresContract) (frequency : Frequency) : PriceSeries :=
  (db.lookup (contract, frequency)).getD []

/-- Store a series for a contract at a frequency, overwriting any
existing entry. -/
def write_prices_at_frequency_for_contract_object (db : PriceDb)
    (contract : futuresContract) (frequency : Frequency)
    (s : PriceSeries) : PriceDb :=
  ((contract, frequency), s) :: db.filter (fun e => e.1 ≠ (contract, frequency))

/-- Insert an observation into a series keeping dates ordered. -/
def insertByDate (x : Nat × Option ℚ) : PriceSeries → PriceSeries
  | [] => [x]
  | y :: rest => if x.1 ≤ y.1 then x :: y :: rest else y :: insertByDate x rest

/-- Sort a series by date. -/
def sortByDate (s : PriceSeries) : PriceSeries := s.foldr insertByDate []

/-- Modelled from the spec: `merge_data_with_different_freq`
(`syscore/pandas/frequency.py`, not under `src/`): series are listed highest
precedence first; duplicate timestamps keep the higher-precedence value,
timestamps unique to a lower-precedence series are retained, and the result
is ordered by date. -/
def merge_data_with_different_freq : List PriceSeries → PriceSeries
  | [] => []
  | first :: rest =>
    let merged_rest := merge_data_with_different_freq rest
    sortByDate
      (first ++ merged_rest.filter (fun r => !first.any (fun q => q.1 == r.1)))

/-- `create_merged_prices` from
`sysinit/futures/contract_prices_from_csv_to_arctic.py` (lines 80-103):
when the store has both daily and hourly data for the contract, merge them
(hourly first, taking precedence) and write the result at the mixed
frequency; otherwise the function body is skipped entirely and the store is
untouched. The source raises no exception on either path. -/
def create_merged_prices (db : PriceDb) (contract : futuresContract) :
    Except PipeError PriceDb :=
  if has_price_data_for_contract_at_frequency db contract .daily &&
      has_price_data_for_contract_at_frequency db contract .hourly then
    let list_of_data :=
      [get_prices_at_frequency_for_contract_object db contract .hourly,
        get_prices_at_frequency_for_contract_object db contract .daily]
    let merged_prices := merge_data_with_different_freq list_of_data
    .ok (write_prices_at_frequency_for_contract_object db contract .mixed
      merged_prices)
  else
    .ok db

/-- C6 counterexample: a contract with no observations at any frequency (an
empty store): `create_merged_prices` returns `ok` with the store unchanged —
it neither raises `InsufficientDataError` nor writes anything. -/
theorem create_merged_prices_no_data_counterexample :
    has_price_data_for_contract_at_frequency []
      ⟨"GOLD", ⟨2024, 6⟩⟩ .daily = false ∧
    has_price_data_for_contract_at_frequency []
      ⟨"GOLD", ⟨2024, 6⟩⟩ .hourly = false ∧
    create_merged_prices [] ⟨"GOLD", ⟨2024, 6⟩⟩ = .ok [] :=
  ⟨by rfl, by rfl, by rfl⟩

/-- C6 amended: when a contract lacks price data at the hourly or the daily
frequency (in particular when it has none at all), `create_merged_prices`
silently returns with the store unchanged; no error is raised and no merged
series is written. -/
theorem create_merged_prices_skips_when_data_missing (db : PriceDb)
    (contract : futuresContract)
    (h : has_price_data_for_contract_at_frequency db contract .daily = false ∨
      has_price_data_for_contract_at_frequency db contract .hourly = false) :
    create_merged_prices db contract = .ok db := by
  unfold create_merged_prices
  rcases h with h | h <;> simp [h]

/-- Concrete instance of the silent skip on missing data. -/
theorem create_merged_prices_skips_when_data_missing_witness :
    create_merged_prices [] ⟨"GOLD", ⟨2024, 6⟩⟩ = .ok [] :=
  create_merged_prices_skips_when_data_missing [] ⟨"GOLD", ⟨2024, 6⟩⟩
    (Or.inl (by rfl))

/-- C2 counterexample: on a calendar whose boundary row references a
contract with no entry in the price dictionary (here the dictionary is
empty), `add_phantom_row` returns the calendar unchanged — an `ok` result,
not a `MissingContractDataError`. -/
theorem add_phantom_row_missing_data_counterexample :
    sampleRow.next_contract ∉ ([] : PriceDict).map Prod.fst ∧
    add_phantom_row 20 [sampleRow] [] sampleRP = .ok [sampleRow] :=
  ⟨by decide, by rfl⟩

/-- C2 amended: when the contract referenced by the boundary row has no
entry in the price dictionary, `add_phantom_row` returns the input calendar
unchanged (the source catches its own assertion, prints a warning and skips
the row) instead of raising. -/
theorem add_phantom_row_missing_data_returns_unchanged (now : Nat)
    (cal : RollCalendar) (prices : PriceDict) (rp : rollParameters)
    (fr : RollCalRow) (hlast : cal.getLast? = some fr)
    (hmem : fr.next_contract ∉ prices.map Prod.fst) :
    add_phantom_row now cal prices rp = .ok cal := by
  unfold add_phantom_row
  rw [hlast]
  by_cases hlt : now < fr.date
  · simp [hlt]
  · simp [hlt, hmem]

/-- Concrete instance of the missing-data behaviour. -/
theorem add_phantom_row_missing_data_returns_unchanged_witness :
    add_phantom_row 20 [sampleRow] [] sampleRP = .ok [sampleRow] :=
  add_phantom_row_missing_data_returns_unchanged 20 [sampleRow] [] sampleRP
    sampleRow (by rfl) (by decide)

/-- C3 counterexample: two calendars whose last rows agree on the current
contract (and with the same roll parameters and price dictionary) produce
appended boundary rows with different "current" contracts — the appended
current contract is copied from the calendar's next-contract field, so it is
not any pure function of the last current contract and the roll parameters;
in particular it differs from the next held contract in the roll cycle. -/
theorem add_phantom_row_current_not_from_cycle_counterexample :
    add_phantom_row 20 [sampleRow] sampleDict sampleRP =
      .ok [sampleRow, ⟨25, ⟨2024, 6⟩, ⟨2024, 9⟩, ⟨2024, 9⟩⟩] ∧
    add_phantom_row 20 [⟨10, ⟨2024, 3⟩, ⟨2024, 12⟩, ⟨2024, 9⟩⟩] sampleDict sampleRP =
      .ok [⟨10, ⟨2024, 3⟩, ⟨2024, 12⟩, ⟨2024, 9⟩⟩,
        ⟨25, ⟨2024, 12⟩, ⟨2025, 3⟩, ⟨2025, 3⟩⟩] ∧
    sampleRow.current_contract =
      (⟨10, ⟨2024, 3⟩, ⟨2024, 12⟩, ⟨2024, 9⟩⟩ : RollCalRow).current_contract ∧
    (⟨2024, 6⟩ : contractDate) ≠ ⟨2024, 12⟩ ∧
    next_held_contract (⟨2024, 3⟩ : contractDate) sampleRP ≠ ⟨2024, 12⟩ :=
  ⟨by rfl, by rfl, by rfl, by decide, by decide⟩

/-- C3 amended: when `add_phantom_row` appends a boundary row, that row's
current contract is copied from the last row's next-contract field, its
next and carry contracts are the pure functions `next_held_contract` and
`carry_contract` of that contract and the roll parameters, and its date is
the reference clock plus five days. -/
theorem add_phantom_row_appended_row_fields (now : Nat) (cal : RollCalendar)
    (prices : PriceDict) (rp : rollParameters) (fr r : RollCalRow)
    (hlast : cal.getLast? = some fr)
    (h : add_phantom_row now cal prices rp = .ok (cal ++ [r])) :
    r.current_contract = fr.next_contract ∧
    r.next_contract = next_held_contract fr.next_contract rp ∧
    r.carry_contract = PySystemTrade.carry_contract fr.next_contract rp ∧
    r.date = now + 5 := by
  unfold add_phantom_row at h
  rw [hlast] at h
  by_cases hlt : now < fr.date
  · simp only [if_pos hlt, Except.ok.injEq] at h
    exact absurd (congrArg List.length h) (by simp)
  · simp only [if_neg hlt] at h
    by_cases hmem : fr.next_contract ∈ prices.map Prod.fst
    · simp only [if_pos hmem, Except.ok.injEq] at h
      have hr := List.append_cancel_left h
      simp only [List.cons.injEq, and_true] at hr
      rw [← hr]
      exact ⟨rfl, rfl, rfl, rfl⟩
    · simp only [if_neg hmem, Except.ok.injEq] at h
      exact absurd (congrArg List.length h) (by simp)

/-- Concrete instance of the appended-row field derivation. -/
theorem add_phantom_row_appended_row_fields_witness :
    (⟨25, ⟨2024, 6⟩, ⟨2024, 9⟩, ⟨2024, 9⟩⟩ : RollCalRow).current_contract =
      sampleRow.next_contract :=
  (add_phantom_row_appended_row_fields 20 [sampleRow] sampleDict sampleRP
    sampleRow ⟨25, ⟨2024, 6⟩, ⟨2024, 9⟩, ⟨2024, 9⟩⟩ (by rfl) (by rfl)).1

/-- Modelled from the spec: one row of a `futuresMultiplePrices` panel
(`sysobjects/multiple_prices.py`, not under `src/`): "each row holds the
current/forward/carry prices (floating point, may be absent) and the three
contract identifiers active on that date"; the forward price is the current
contract's own price looked up at the next roll date. -/
structure MultRow where
  date : Nat
  price : Option ℚ
  forward : Option ℚ
  carry_price : Option ℚ
  price_contract : contractDate
  forward_contract : contractDate
  carry_contract : contractDate
deriving DecidableEq, Repr

/-- A multiple-prices panel, ordered by date. -/
abbrev futuresMultiplePrices := List MultRow

/-- An adjusted continuous price series, ordered by date. -/
abbrev futuresAdjustedPrices := List (Nat × Option ℚ)

/-- Modelled from the spec: the multiple-prices sink
(`add_multiple_prices` of the csv/db price-data classes, not under `src/`):
"rejected with a DuplicationError if data already exists and
allow_overwrite is false"; on rejection the store is unchanged, otherwise
the instrument's data is replaced. Returns the resulting store and the
error, if any. -/
def add_multiple_prices (store : List (String × futuresMultiplePrices))
    (instrument_code : String) (prices : futuresMultiplePrices)
    (ignore_duplication : Bool) :
    List (String × futuresMultiplePrices) × Option PipeError :=
  if (store.lookup instrument_code).isSome && !ignore_duplication then
    (store, some .duplication)
  else
    ((instrument_code, prices) :: store.filter (fun e => e.1 ≠ instrument_code),
      none)

/-- Modelled from the spec: the adjusted-prices sink
(`add_adjusted_prices` of the csv/db price-data classes, not under `src/`),
with the same duplication guard as the multiple-prices sink. -/
def add_adjusted_prices (store : List (String × futuresAdjustedPrices))
    (instrument_code : String) (prices : futuresAdjustedPrices)
    (ignore_duplication : Bool) :
    List (String × futuresAdjustedPrices) × Option PipeError :=
  if (store.lookup instrument_code).isSome && !ignore_duplication then
    (store, some .duplication)
  else
    ((instrument_code, prices) :: store.filter (fun e => e.1 ≠ instrument_code),
      none)

/-- C7: when data for the instrument already exists and overwrite was not
requested, both sink writes are rejected with a duplication error and leave
the store unchanged; and any write that succeeds silently on existing data
must have requested overwrite explicitly. -/
theorem sink_write_duplication_guard
    (mstore : List (String × futuresMultiplePrices))
    (astore : List (String × futuresAdjustedPrices))
    (code : String) (mp : futuresMultiplePrices) (ap : futuresAdjustedPrices)
    (hm : (mstore.lookup code).isSome = true)
    (ha : (astore.lookup code).isSome = true) :
    add_multiple_prices mstore code mp false = (mstore, some .duplication) ∧
    add_adjusted_prices astore code ap false = (astore, some .duplication) ∧
    (∀ ow, (add_multiple_prices mstore code mp ow).2 = none → ow = true) ∧
    (∀ ow, (add_adjusted_prices astore code ap ow).2 = none → ow = true) := by
  refine ⟨?_, ?_, ?_, ?_⟩
  · simp [add_multiple_prices, hm]
  · simp [add_adjusted_prices, ha]
  · intro ow how
    cases ow
    · simp [add_multiple_prices, hm] at how
    · rfl
  · intro ow how
    cases ow
    · simp [add_adjusted_prices, ha] at how
    · rfl

/-- Concrete instance of the duplication guard: a write over existing data
with overwrite not requested is rejected and the store is unchanged. -/
theorem sink_write_duplication_guard_witness :
    add_adjusted_prices [("GOLD", [(1, some 100)])] "GOLD" [] false =
      ([("GOLD", [(1, some 100)])], some .duplication) :=
  (sink_write_duplication_guard [("GOLD", [])] [("GOLD", [(1, some 100)])]
    "GOLD" [] [] (by rfl) (by rfl)).2.1

/-- Forward-fill a dated series of optional values, carrying `last` in. -/
def ffill_from (last : Option ℚ) :
    List (Nat × Option ℚ) → List (Nat × Option ℚ)
  | [] => []
  | (d, v) :: rest =>
    match v with
    | some x => (d, some x) :: ffill_from (some x) rest
    | none => (d, last) :: ffill_from last rest

/-- Forward-fill a dated series of optional values. -/
def ffill (s : List (Nat × Option ℚ)) : List (Nat × Option ℚ) :=
  ffill_from none s

/-- Modelled from the spec: the adjustment delta at a roll row `r` whose
predecessor row `p` holds the outgoing contract: "(incoming current-contract
price − outgoing current-contract price) evaluated at the roll date", the
outgoing contract's price at the roll date being `p`'s forward price. Zero
when either side is absent. -/
def roll_delta (r p : MultRow) : ℚ :=
  match r.price, p.forward with
  | some a, some b => a - b
  | _, _ => 0

/-- Modelled from the spec: the reverse-chronological cumulative-adjustment
fold: rows are processed most recent first with accumulator `acc` (the sum
of the deltas of all later rolls); crossing a roll (a change of the price
contract between adjacent rows) adds that roll's delta for all earlier
rows. -/
def back_adjust_rev (acc : ℚ) : List MultRow → List (Nat × Option ℚ)
  | [] => []
  | [r] => [(r.date, r.price.map (fun x => x + acc))]
  | r :: p :: earlier =>
    (r.date, r.price.map (fun x => x + acc)) ::
      back_adjust_rev
        (if p.price_contract = r.price_contract then acc
          else acc + roll_delta r p) (p :: earlier)

/-- Modelled from the spec: `futuresAdjustedPrices.stitch_multiple_prices`
(`sysobjects/adjusted_prices.py`, not under `src/`): Panama back-adjustment
of a multiple-prices panel — most recent contract's levels preserved, all
historical prices shifted by the cumulative sum of later roll deltas —
optionally forward-filling the result. -/
def stitch_multiple_prices (multiple_prices : futuresMultiplePrices)
    (forward_fill : Bool) : futuresAdjustedPrices :=
  let adjusted := (back_adjust_rev 0 multiple_prices.reverse).reverse
  if forward_fill then ffill adjusted else adjusted

/-- A multiple-prices panel built from a single contract with no rolls:
every row carries that contract as current, forward and carry. -/
def panel_from_single_contract (c : contractDate)
    (series : List (Nat × Option ℚ)) : futuresMultiplePrices :=
  series.map (fun x => ⟨x.1, x.2, x.2, x.2, c, c, c⟩)

/-- On rows that all share one price contract, the back-adjustment fold
applies a zero offset throughout. -/
theorem back_adjust_rev_const_contract (c : contractDate) :
    ∀ rows : List MultRow, (∀ r ∈ rows, r.price_contract = c) →
      back_adjust_rev 0 rows = rows.map (fun r => (r.date, r.price))
  | [], _ => rfl
  | r :: earlier, hc => by
    have hr : r.price_contract = c := hc r (by simp)
    have hrest : ∀ q ∈ earlier, q.price_contract = c :=
      fun q hq => hc q (by simp [hq])
    have ih := back_adjust_rev_const_contract c earlier hrest
    cases earlier with
    | nil => simp [back_adjust_rev]
    | cons p rest =>
      have hp : p.price_contract = c := hrest p (by simp)
      have hpr : p.price_contract = r.price_contract := by rw [hp, hr]
      rw [back_adjust_rev, if_pos hpr, ih]
      simp

/-- C8: stitching a panel built from a single contract with no rolls, with
forward-fill enabled, returns exactly the forward-fill of that contract's
raw merged price series. -/
theorem stitch_single_contract_roundtrip (c : contractDate)
    (series : List (Nat × Option ℚ)) :
    stitch_multiple_prices (panel_from_single_contract c series) true =
      ffill series := by
  unfold stitch_multiple_prices
  have hc : ∀ r ∈ (panel_from_single_contract c series).reverse,
      r.price_contract = c := by
    intro r hr
    rw [List.mem_reverse] at hr
    rcases List.mem_map.mp hr with ⟨x, _, hx⟩
    rw [← hx]
  rw [back_adjust_rev_const_contract c _ hc]
  simp only [panel_from_single_contract, List.map_reverse, List.reverse_reverse,
    List.map_map]
  have : ((fun r : MultRow => (r.date, r.price)) ∘
      fun x : Nat × Option ℚ => MultRow.mk x.1 x.2 x.2 x.2 c c c) = id := by
    funext x
    rfl
  rw [this, List.map_id]
  simp

/-- A pandas DataFrame as the csv access layer sees it: an optional index
name, the index labels and the named data columns, every cell rendered as a
string. -/
structure DataFrame where
  index_name : Option String
  index : List String
  columns : List (String × List String)
deriving DecidableEq, Repr

/-- The parsed content of a csv file: one entry per column, each holding its
header cell and its body cells. -/
abbrev CsvFile := List (String × List String)

/-- `pd.DataFrame.to_csv` with default arguments, as called by
`CsvAccess.write_data_given_data_type_and_identifier`: the index is
serialised as the leading column, its name in the header (an empty header
cell for an unnamed index), followed by the data columns. -/
def to_csv (df : DataFrame) : CsvFile :=
  (df.index_name.getD "", df.index) :: df.columns

/-- Column labelling of `pd.read_csv`: a column whose header cell is empty
is labelled "Unnamed: k" after its position. -/
def label_columns (i : Nat) : List (String × List String) → List (String × List String)
  | [] => []
  | col :: rest =>
    (if col.1 = "" then "Unnamed: " ++ toString i else col.1, col.2) ::
      label_columns (i + 1) rest

/-- `pd.read_csv` with default arguments, as called by
`CsvAccess.read_data_given_data_type_and_identifier`: every csv column —
including the serialised index — becomes a data column, and the frame gets
a fresh unnamed integer range index. -/
def read_csv (file : CsvFile) : DataFrame :=
  { index_name := none,
    index := (List.range (file.headD ("", [])).2.length).map (fun n => toString n),
    columns := label_columns 0 file }

/-- The `CsvAccess` store (`sysdata/csv/csv_access.py`): one csv file per
(data type, identifier) pair, the filename being determined by both. -/
structure CsvAccess where
  csv_store : List ((String × String) × CsvFile)
deriving DecidableEq, Repr

/-- `CsvAccess.write_data_given_data_type_and_identifier` (lines 37-43):
serialise the frame with `to_csv` into the file for (data type,
identifier), replacing any existing file. -/
def CsvAccess.write_data_given_data_type_and_identifier (self : CsvAccess)
    (data_to_write : DataFrame) (data_type : String) (identifier : String) :
    CsvAccess :=
  ⟨((data_type, identifier), to_csv data_to_write) ::
    self.csv_store.filter (fun e => e.1 ≠ (data_type, identifier))⟩

/-- `CsvAccess.read_data_given_data_type_and_identifier` (lines 45-51):
parse the file for (data type, identifier) with `read_csv`
(`none` models the exception on a missing file). -/
def CsvAccess.read_data_given_data_type_and_identifier (self : CsvAccess)
    (data_type : String) (identifier : String) : Option DataFrame :=
  (self.csv_store.lookup (data_type, identifier)).map read_csv

/-- Sample frame used in the csv round-trip statements. -/
def sampleDF : DataFrame := ⟨none, ["2024-01-01"], [("PRICE", ["100.0"])]⟩

/-- C10 counterexample: writing a frame with a date index and reading it
back does not return an equal frame: the index comes back as a leading data
column "Unnamed: 0" and the frame gets a fresh integer range index. -/
theorem csv_roundtrip_counterexample :
    CsvAccess.read_data_given_data_type_and_identifier
      (CsvAccess.write_data_given_data_type_and_identifier ⟨[]⟩ sampleDF
        "adjusted_prices" "GOLD") "adjusted_prices" "GOLD" ≠ some sampleDF ∧
    CsvAccess.read_data_given_data_type_and_identifier
      (CsvAccess.write_data_given_data_type_and_identifier ⟨[]⟩ sampleDF
        "adjusted_prices" "GOLD") "adjusted_prices" "GOLD" =
      some ⟨none, ["0"], [("Unnamed: 0", ["2024-01-01"]), ("PRICE", ["100.0"])]⟩ :=
  ⟨by decide, by rfl⟩

/-- Labelling leaves columns with nonempty header cells unchanged. -/
theorem label_columns_named (cols : List (String × List String))
    (h : ∀ col ∈ cols, col.1 ≠ "") :
    ∀ i, label_columns i cols = cols := by
  induction cols with
  | nil => intro i; rfl
  | cons col rest ih =>
    intro i
    have hcol : col.1 ≠ "" := h col (by simp)
    have hrest := ih (fun q hq => h q (by simp [hq]))
    simp [label_columns, hcol, hrest (i + 1)]

/-- C10 amended: a read after a write under the same data type and
identifier returns the written data but not an equal frame: the result
holds the written frame's index as its first data column (labelled
"Unnamed: 0" when the index was unnamed, else by the index's name) followed
by the written data columns, under a fresh unnamed integer range index. -/
theorem csv_roundtrip_shape (a : CsvAccess) (df : DataFrame)
    (data_type identifier : String)
    (hnamed : ∀ col ∈ df.columns, col.1 ≠ "") :
    CsvAccess.read_data_given_data_type_and_identifier
      (CsvAccess.write_data_given_data_type_and_identifier a df data_type
        identifier) data_type identifier =
    some
      { index_name := none,
        index := (List.range df.index.length).map (fun n => toString n),
        columns :=
          (if df.index_name.getD "" = "" then "Unnamed: 0"
            else df.index_name.getD "", df.index) :: df.columns } := by
  unfold CsvAccess.read_data_given_data_type_and_identifier
    CsvAccess.write_data_given_data_type_and_identifier
  simp only [List.lookup, beq_self_eq_true, Option.map_some]
  unfold read_csv to_csv
  simp [label_columns, label_columns_named df.columns hnamed 1]
  by_cases hidx : df.index_name.getD "" = "" <;> simp [hidx] <;> rfl

/-- Concrete instance of the round-trip shape on the sample frame. -/
theorem csv_roundtrip_shape_witness :
    CsvAccess.read_data_given_data_type_and_identifier
      (CsvAccess.write_data_given_data_type_and_identifier ⟨[]⟩ sampleDF
        "adjusted_prices" "GOLD") "adjusted_prices" "GOLD" =
      some ⟨none, ["0"], [("Unnamed: 0", ["2024-01-01"]), ("PRICE", ["100.0"])]⟩ := by
  have h := csv_roundtrip_shape ⟨[]⟩ sampleDF "adjusted_prices" "GOLD"
    (by intro col hc; simp [sampleDF] at hc; simp [hc])
  simpa [sampleDF] using h

end PySystemTrade
